import Mathlib

/-
Verification of the model-resolution core of `sqlalchemy_filters/models.py`.

The embedding is shallow: SQLAlchemy models become a tree-shaped `Model`
value exposing exactly what the mapping layer exposes (a name, column
names, relationship names with their related model); Python exceptions
become an explicit `PyError` sum threaded through `Except`; the external
query engine's `Query.join` (which the source only ever calls inside a
`try ... except InvalidRequestError`) is an oracle parameter returning a
`JoinOutcome`.
-/

/-- Model class as seen through the mapping layer: `inspect(model).columns.keys()`,
`inspect(model).relationships.keys()`, and for each relationship the related
model class obtained by `get_type(getattr(model, rel))`. -/
inductive Model where
  | mk (name : String) (columns : List String) (relationships : List (String × Model))

/-- Stable class name, `model.__name__`. -/
def Model.name : Model → String
  | .mk n _ _ => n

/-- Column names, `inspect(model).columns.keys()`. -/
def Model.columns : Model → List String
  | .mk _ c _ => c

/-- Relationships, `inspect(model).relationships.keys()` paired with the
related model class. -/
def Model.relationships : Model → List (String × Model)
  | .mk _ _ r => r

mutual

/-- Structural equality on models; stands in for Python class identity in
membership tests (`model in values`), where distinct classes are distinct
values. -/
def Model.beq : Model → Model → Bool
  | .mk n1 c1 r1, .mk n2 c2 r2 => n1 == n2 && c1 == c2 && Model.relsBeq r1 r2

/-- Pointwise equality of relationship lists. -/
def Model.relsBeq : List (String × Model) → List (String × Model) → Bool
  | [], [] => true
  | (k1, m1) :: t1, (k2, m2) :: t2 => k1 == k2 && Model.beq m1 m2 && Model.relsBeq t1 t2
  | _, _ => false

end

/-- Result of a successful Python attribute access on a model class: the
instrumented attribute is either a mapped column of the class or a
relationship of the class (carrying its target class). -/
inductive Attr where
  | column (model : Model) (name : String)
  | relation (model : Model) (name : String) (target : Model)

/-- Exceptions the source can raise or observe. `fieldNotFound`, `badQuery`
and `badSpec` are the library's own exception classes (each carrying the
data its message is formatted from); `valueError` is Python's unpacking
error from `a, b = s.split('.')`; `attributeError` is a failed `getattr`;
`indexError` is `list(...)[-1]` on an empty list; `engineError` is an
arbitrary exception raised by the query engine that is not
`InvalidRequestError` (tagged by a number, its identity never matters). -/
inductive PyError where
  | fieldNotFound (model : String) (field : String)
  | badQuery (msg : String)
  | badSpec (msg : String)
  | valueError
  | attributeError (obj : String) (attr : String)
  | indexError
  | engineError (tag : Nat)
deriving DecidableEq

/-- Splitting of a character list on the dot character, with Python
`str.split('.')` semantics: `"" ↦ [""]`, `"a.b" ↦ ["a","b"]`,
`"a..b" ↦ ["a","","b"]`. -/
def pySplitDot : List Char → List (List Char)
  | [] => [[]]
  | c :: rest =>
    let r := pySplitDot rest
    if c = '.' then [] :: r
    else
      match r with
      | h :: t => (c :: h) :: t
      | [] => [[c]]

/-- Python `field_name.split('.')`. -/
def pySplit (s : String) : List String :=
  (pySplitDot s.data).map String.mk

/-- Python `'.' in field_name`. -/
def containsDot (s : String) : Bool :=
  s.data.any (fun c => c == '.')

/-- Python `getattr(model, attr)` restricted to what the mapping layer puts
on a model class: mapped columns and relationships (each name carries at
most one of the two, so the lookup order is immaterial). `none` is an
`AttributeError`. -/
def getattrOpt (model : Model) (attr : String) : Option Attr :=
  if model.columns.contains attr then some (.column model attr)
  else
    match model.relationships.find? (fun r => r.1 == attr) with
    | some (_, target) => some (.relation model attr target)
    | none => none

/-- Field.get_sqlalchemy_field from `models.py` (`self.model` and
`self.field_name` passed explicitly). `model_field, related_field, =
self.field_name.split('.')` raises `ValueError` unless the split has
exactly two parts; the relationship branch returns
`getattr(related_model, related_field)` with no check that the related
field is a column; falling out of both branches raises `FieldNotFound`
with the model and the requested name. -/
def get_sqlalchemy_field (model : Model) (field_name : String) : Except PyError Attr :=
  if containsDot field_name then
    match pySplit field_name with
    | [model_field, related_field] =>
      match model.relationships.find? (fun r => r.1 == model_field) with
      | some (_, related_model) =>
        match getattrOpt related_model related_field with
        | some a => .ok a
        | none => .error (.attributeError related_model.name related_field)
      | none => .error (.fieldNotFound model.name field_name)
    | _ => .error .valueError
  else
    if model.columns.contains field_name then
      match getattrOpt model field_name with
      | some a => .ok a
      | none => .error (.attributeError model.name field_name)
    else .error (.fieldNotFound model.name field_name)

/-- Discriminator: did field resolution fail with the library's
`FieldNotFound` exception? -/
def isFieldNotFoundErr : Except PyError Attr → Bool
  | .error (.fieldNotFound _ _) => true
  | _ => false

/-- Query state as the source reads it: `query.column_descriptions` yields
the primary selected entities, `query._join_entities` the classes already
joined in. The engine's `join` operation itself is an oracle parameter of
the planners. -/
structure Query where
  primaryEntities : List Model
  joinEntities : List Model

/-- Python dict assignment `d[k] = v` on a name-keyed mapping represented
as an association list: an existing key keeps its position and gets the
new value, a fresh key is appended. -/
def dictInsert : List (String × Model) → String → Model → List (String × Model)
  | [], k, v => [(k, v)]
  | p :: rest, k, v => if p.1 == k then (k, v) :: rest else p :: dictInsert rest k v

/-- Python dict lookup `d[k]` (as an `Option`). -/
def dictLookup (d : List (String × Model)) (k : String) : Option Model :=
  (d.find? (fun p => p.1 == k)).map (fun p => p.2)

/-- Python `d.values()` in key-insertion order. -/
def dictValues (d : List (String × Model)) : List Model :=
  d.map (fun p => p.2)

/-- get_query_models from `models.py`: the comprehension
`{model.__name__: model for model in models}` over the primary entities
followed by the join entities. -/
def get_query_models (query : Query) : List (String × Model) :=
  (query.primaryEntities ++ query.joinEntities).foldl
    (fun d m => dictInsert d m.name m) []

/-- Filter-spec dictionary: at least a `field` entry; `spec.get('model')`
is `none` when the `model` key is absent. -/
structure FilterSpec where
  field : String
  model : Option String

/-- get_model_from_spec from `models.py` (with `default_model` passed
explicitly, `none` standing for the Python default `None`). -/
def get_model_from_spec (spec : FilterSpec) (query : Query) (default_model : Option Model) :
    Except PyError Model :=
  let models := get_query_models query
  if models.isEmpty then
    .error (.badQuery "The query does not contain any models.")
  else
    match spec.model with
    | some model_name =>
      match models.filter (fun p => p.1 == model_name) with
      | [] => .error (.badSpec ("The query does not contain model `" ++ model_name ++ "`."))
      | (_, v) :: _ => .ok v
    | none =>
      match models with
      | [(_, m)] => .ok m
      | _ =>
        match default_model with
        | some d => .ok d
        | none => .error (.badSpec "Ambiguous spec. Please specify a model.")

/-- get_model_class_by_name from `models.py`: first registry value whose
`__name__` equals `name`; falling off the loop returns `None`. -/
def get_model_class_by_name : List Model → String → Option Model
  | [], _ => none
  | cls :: rest, name => if cls.name == name then some cls else get_model_class_by_name rest name

/-- Argument passed to the engine's `query.join(...)`: a model attribute
(`getattr(model, field_name)`), a bare model class, or Python `None` (what
`auto_join` passes when the registry lookup found nothing). -/
inductive JoinArg where
  | ofAttr (a : Attr)
  | ofModel (m : Model)
  | ofNone

/-- Outcome of the engine's `query.join(...)`: a new query, an
`InvalidRequestError` (the only exception the source catches), or any
other exception (which the source lets propagate). -/
inductive JoinOutcome where
  | ok (q : Query)
  | invalidRequest
  | raised (e : PyError)

/-- Oracle for the external engine's join operation. -/
def JoinOracle : Type := Query → JoinArg → JoinOutcome

/-- Filter tree node: a leaf filter object exposing `filter_spec`, or a
boolean combinator exposing `filters`. Modelled from the spec: combinator
nodes expose only the `filters` sequence (no `filter_spec` attribute), so
reading `filter_spec` on one is an `AttributeError`. -/
inductive FilterNode where
  | leaf (filter_spec : FilterSpec)
  | comb (filters : List FilterNode)

/-- Python `hasattr(f, 'filters')`. -/
def hasFiltersAttr : FilterNode → Bool
  | .leaf _ => false
  | .comb _ => true

/-- filter_join, the inner function of implicit_join in `models.py`
(closing over `model` and the join oracle): on a dotted field it splits
the name (`ValueError` if more than two parts), reads
`getattr(model, field_name)` (`AttributeError` if absent), and attempts
the join, swallowing only `InvalidRequestError`; a non-dotted field
returns the query unchanged. On a combinator node the access
`spec.filter_spec` itself fails. -/
def filter_join (join : JoinOracle) (model : Model) (query : Query) (spec : FilterNode) :
    Except PyError Query :=
  match spec with
  | .comb _ => .error (.attributeError "BooleanFilter" "filter_spec")
  | .leaf fs =>
    if containsDot fs.field then
      match pySplit fs.field with
      | [field_name, _relation_field_name] =>
        match getattrOpt model field_name with
        | none => .error (.attributeError model.name field_name)
        | some class_and_field =>
          match join query (.ofAttr class_and_field) with
          | .ok q2 => .ok q2
          | .invalidRequest => .ok query
          | .raised e => .error e
      | _ => .error .valueError
    else .ok query

/-- One iteration of the outer loop of implicit_join: a node exposing
`filters` has `filter_join` applied to each of its children (the source's
inner guard re-tests `hasattr(f1, 'filters')`, which is vacuously true
there); any other node has `filter_join` applied to itself. -/
def processNode (join : JoinOracle) (model : Model) (query : Query) (f1 : FilterNode) :
    Except PyError Query :=
  if hasFiltersAttr f1 then
    match f1 with
    | .comb children => children.foldlM (fun q f2 => filter_join join model q f2) query
    | .leaf _ => filter_join join model query f1
  else filter_join join model query f1

/-- implicit_join from `models.py`. -/
def implicit_join (join : JoinOracle) (query : Query) (model : Model)
    (filters : List FilterNode) : Except PyError Query :=
  filters.foldlM (fun q f1 => processNode join model q f1) query

/-- Python `model in values` where `model` is the (possibly `None`) result
of the registry lookup and `values` are the query's model classes: `None`
equals no class, a class equals exactly itself. -/
def optInValues (model : Option Model) (values : List Model) : Bool :=
  values.any (fun v =>
    match model with
    | some m => Model.beq m v
    | none => false)

/-- Body of the loop of auto_join for one requested name: look the name up
in the registry, skip if the result is already among the query's models,
otherwise attempt `query.join(model)` swallowing only
`InvalidRequestError`. -/
def auto_join_step (registry : List Model) (join : JoinOracle) (q : Query) (name : String) :
    Except PyError Query :=
  let model := get_model_class_by_name registry name
  if optInValues model (dictValues (get_query_models q)) then .ok q
  else
    match join q (match model with | some m => .ofModel m | none => .ofNone) with
    | .ok q2 => .ok q2
    | .invalidRequest => .ok q
    | .raised e => .error e

/-- auto_join from `models.py`: the registry is fetched once from the last
model of the query (`list(query_models)[-1]._decl_class_registry`, an
`IndexError` on a model-less query); `declRegistry` models the
`_decl_class_registry` back-reference (its `.values()` as iterated by
`get_model_class_by_name`). -/
def auto_join (declRegistry : Model → List Model) (join : JoinOracle) (query : Query)
    (model_names : List String) : Except PyError Query :=
  match (dictValues (get_query_models query)).getLast? with
  | none => .error .indexError
  | some lastModel => model_names.foldlM (auto_join_step (declRegistry lastModel) join) query

/-- Last model of a list bearing a given name, if any: the reference
semantics of repeated dict insertion keyed by name. -/
def lastNamed (l : List Model) (n : String) : Option Model :=
  l.foldl (fun acc m => if m.name == n then some m else acc) none

/-- Test fixture: a related model with columns only. -/
def orderModel : Model := .mk "Order" ["total", "id"] []

/-- Test fixture: a model with a column and a relationship to `orderModel`. -/
def customerModel : Model := .mk "Customer" ["name", "id"] [("orders", orderModel)]

/-- Test fixture: leaf of a two-hop relationship chain. -/
def partModel : Model := .mk "Part" ["pid"] []

/-- Test fixture: middle of a two-hop relationship chain. -/
def invoiceModel : Model := .mk "Invoice" ["amount"] [("parts", partModel)]

/-- Test fixture: root of a two-hop relationship chain. -/
def clientModel : Model := .mk "Client" ["cid"] [("invoices", invoiceModel)]

/-- Test fixture: single-model query over `customerModel`. -/
def customerQuery : Query := ⟨[customerModel], []⟩

/-- Test fixture: query over `customerModel` with `orderModel` joined in. -/
def customerOrderQuery : Query := ⟨[customerModel], [orderModel]⟩

/-- Test fixture: join oracle that rejects every join with
`InvalidRequestError`. -/
def rejectAllOracle : JoinOracle := fun _ _ => .invalidRequest

/-- Test fixture: join oracle that appends the join target to the query's
join entities and accepts. -/
def appendOracle : JoinOracle := fun q a =>
  match a with
  | .ofAttr (.relation _ _ t) => .ok ⟨q.primaryEntities, q.joinEntities ++ [t]⟩
  | .ofAttr (.column _ _) => .invalidRequest
  | .ofModel m => .ok ⟨q.primaryEntities, q.joinEntities ++ [m]⟩
  | .ofNone => .invalidRequest

theorem dictLookup_insert (d : List (String × Model)) (k : String) (v : Model) (n : String) :
    dictLookup (dictInsert d k v) n = if k == n then some v else dictLookup d n := by
  induction d with
  | nil =>
    by_cases h : k = n <;>
      simp [dictInsert, dictLookup, List.find?_cons_of_pos, List.find?_cons_of_neg, h]
  | cons p rest ih =>
    by_cases h : p.1 = k
    · subst h
      by_cases hn : p.1 = n <;>
        simp [dictInsert, dictLookup, List.find?_cons_of_pos, List.find?_cons_of_neg, hn]
    · have hne : (p.1 == k) = false := by simpa using h
      by_cases hpn : p.1 = n
      · have hkn : ¬ k = n := fun hc => h (hpn.trans hc.symm)
        have hpn2 : (p.1 == n) = true := by simpa using hpn
        simp only [dictInsert, hne, Bool.false_eq_true, if_false, dictLookup, hkn]
        have e1 : List.find? (fun q : String × Model => q.1 == n) (p :: dictInsert rest k v)
            = some p := List.find?_cons_of_pos _ hpn2
        have e2 : List.find? (fun q : String × Model => q.1 == n) (p :: rest)
            = some p := List.find?_cons_of_pos _ hpn2
        rw [e1, e2]
        simp [hkn]
      · have hpn' : (p.1 == n) = false := by simpa using hpn
        simp only [dictInsert, hne, Bool.false_eq_true, if_false, dictLookup,
          List.find?_cons_of_neg, hpn', Bool.not_eq_true, not_false_iff]
        simpa [dictLookup] using ih

theorem lastNamed_foldl (l : List Model) (init : Option Model) (n : String) :
    l.foldl (fun acc m => if m.name == n then some m else acc) init =
      match lastNamed l n with
      | some x => some x
      | none => init := by
  induction l generalizing init with
  | nil => simp [lastNamed]
  | cons m l ih =>
    rw [List.foldl_cons, ih]
    have hcons : lastNamed (m :: l) n =
        match lastNamed l n with
        | some x => some x
        | none => if m.name == n then some m else none := by
      show l.foldl _ (if m.name == n then some m else none) = _
      exact ih _
    rw [hcons]
    cases hl : lastNamed l n with
    | some x => simp
    | none => by_cases h : (m.name == n) = true <;> simp [h]

theorem lastNamed_cons (m : Model) (l : List Model) (n : String) :
    lastNamed (m :: l) n =
      match lastNamed l n with
      | some x => some x
      | none => if m.name == n then some m else none := by
  show l.foldl _ (if m.name == n then some m else none) = _
  exact lastNamed_foldl l _ n

theorem foldl_insert_lookup (l : List Model) (d : List (String × Model)) (n : String) :
    dictLookup (l.foldl (fun d m => dictInsert d m.name m) d) n =
      match lastNamed l n with
      | some x => some x
      | none => dictLookup d n := by
  induction l generalizing d with
  | nil => simp [lastNamed]
  | cons m l ih =>
    rw [List.foldl_cons, ih, lastNamed_cons]
    cases hl : lastNamed l n with
    | some x => simp
    | none =>
      rw [dictLookup_insert]
      by_cases h : (m.name == n) = true <;> simp [h]

theorem find?_eq_head_filter (p : String × Model → Bool) (l : List (String × Model)) :
    l.find? p = (l.filter p).head? := by
  induction l with
  | nil => rfl
  | cons a l ih =>
    by_cases h : p a = true
    · rw [List.find?_cons_of_pos _ h, List.filter_cons_of_pos h, List.head?_cons]
    · rw [List.find?_cons_of_neg _ h, List.filter_cons_of_neg h, ih]

theorem getattrOpt_of_column (model : Model) (attr : String)
    (h : model.columns.contains attr = true) :
    getattrOpt model attr = some (.column model attr) := by
  unfold getattrOpt
  rw [h]
  simp

mutual

theorem Model.beq_refl : ∀ (m : Model), Model.beq m m = true
  | .mk n c r => by
    simp only [Model.beq]
    simp [Model.relsBeq_refl r]

theorem Model.relsBeq_refl : ∀ (l : List (String × Model)), Model.relsBeq l l = true
  | [] => rfl
  | (k, m) :: t => by
    simp only [Model.relsBeq]
    simp [Model.beq_refl m, Model.relsBeq_refl t]

end

theorem optInValues_of_mem (m : Model) (vs : List Model) (h : m ∈ vs) :
    optInValues (some m) vs = true := by
  simp only [optInValues, List.any_eq_true]
  exact ⟨m, h, Model.beq_refl m⟩

theorem optInValues_none_false (vs : List Model) : optInValues none vs = false := by
  simp [optInValues]

/-- C1: field resolution succeeds on the two supported shapes: a field
name with no separator that is one of the model's column names resolves
to the column reference on the model; a `relation.field` name with
exactly one separator, whose relation segment is a relationship of the
model and whose field segment is a column of the related model, resolves
to the column reference on the related model. -/
theorem c1_field_resolution_success :
    (∀ (M : Model) (F : String),
      containsDot F = false →
      M.columns.contains F = true →
      get_sqlalchemy_field M F = .ok (.column M F))
    ∧ (∀ (M N : Model) (F R C : String),
      containsDot F = true →
      pySplit F = [R, C] →
      M.relationships.find? (fun r => r.1 == R) = some (R, N) →
      N.columns.contains C = true →
      get_sqlalchemy_field M F = .ok (.column N C)) := by
  constructor
  · intro M F hdot hcol
    have hmem : F ∈ M.columns := by simpa using hcol
    simp [get_sqlalchemy_field, hdot, hmem, getattrOpt_of_column M F hcol]
  · intro M N F R C hdot hsplit hrel hcol
    simp [get_sqlalchemy_field, hdot, hsplit, hrel, getattrOpt_of_column N C hcol]

/-- Witness for C1 at concrete inputs: `name` on `customerModel` and
`orders.total` across the `orders` relationship. -/
theorem c1_field_resolution_success_witness :
    get_sqlalchemy_field customerModel "name" = .ok (.column customerModel "name")
    ∧ get_sqlalchemy_field customerModel "orders.total" = .ok (.column orderModel "total") :=
  ⟨c1_field_resolution_success.1 customerModel "name" (by decide) (by decide),
   c1_field_resolution_success.2 customerModel orderModel "orders.total" "orders" "total"
     (by decide) (by decide) rfl (by decide)⟩

/-- C2 counterexample: on the field name `a.b.c` (two separators) the
resolver raises Python's `ValueError` from the two-way tuple unpacking of
`split('.')`, not the library's `FieldNotFound`. -/
theorem c2_counterexample_value_error :
    get_sqlalchemy_field customerModel "a.b.c" = .error .valueError
    ∧ isFieldNotFoundErr (get_sqlalchemy_field customerModel "a.b.c") = false :=
  ⟨rfl, rfl⟩

/-- C2 (amended): non-resolving field names fail as follows. A name with
no separator that is not a column, or a name with exactly one separator
whose relation segment is not a relationship of the model, fails with
`FieldNotFound` identifying the model and the requested name; a name with
two or more separators fails with `ValueError` (tuple unpacking); a name
with exactly one separator and a valid relation whose field segment is
not an attribute of the related model fails with `AttributeError`; and a
name whose field segment is a relationship (not a column) of the related
model does not fail at all but resolves to that relationship attribute. -/
theorem c2_field_resolution_failures :
    (∀ (M : Model) (F : String),
      containsDot F = false →
      M.columns.contains F = false →
      get_sqlalchemy_field M F = .error (.fieldNotFound M.name F))
    ∧ (∀ (M : Model) (F R C : String),
      containsDot F = true →
      pySplit F = [R, C] →
      M.relationships.find? (fun r => r.1 == R) = none →
      get_sqlalchemy_field M F = .error (.fieldNotFound M.name F))
    ∧ (∀ (M : Model) (F R C D : String) (rest : List String),
      containsDot F = true →
      pySplit F = R :: C :: D :: rest →
      get_sqlalchemy_field M F = .error .valueError)
    ∧ (∀ (M N : Model) (F R C : String),
      containsDot F = true →
      pySplit F = [R, C] →
      M.relationships.find? (fun r => r.1 == R) = some (R, N) →
      getattrOpt N C = none →
      get_sqlalchemy_field M F = .error (.attributeError N.name C))
    ∧ (∀ (M N P : Model) (F R C : String),
      containsDot F = true →
      pySplit F = [R, C] →
      M.relationships.find? (fun r => r.1 == R) = some (R, N) →
      N.columns.contains C = false →
      N.relationships.find? (fun r => r.1 == C) = some (C, P) →
      get_sqlalchemy_field M F = .ok (.relation N C P)) := by
  refine ⟨?_, ?_, ?_, ?_, ?_⟩
  · intro M F hdot hcol
    have hmem : F ∉ M.columns := by simpa using hcol
    simp [get_sqlalchemy_field, hdot, hmem]
  · intro M F R C hdot hsplit hrel
    simp [get_sqlalchemy_field, hdot, hsplit, hrel]
  · intro M F R C D rest hdot hsplit
    simp [get_sqlalchemy_field, hdot, hsplit]
  · intro M N F R C hdot hsplit hrel hattr
    simp [get_sqlalchemy_field, hdot, hsplit, hrel, hattr]
  · intro M N P F R C hdot hsplit hrel hcol hrel2
    have hmem : C ∉ N.columns := by simpa using hcol
    simp [get_sqlalchemy_field, hdot, hsplit, hrel, getattrOpt, hmem, hrel2]

/-- Witness for C2 (amended) at concrete inputs, one per failure shape,
plus the relationship-attribute success on `invoices.parts`. -/
theorem c2_field_resolution_failures_witness :
    get_sqlalchemy_field customerModel "bogus" = .error (.fieldNotFound "Customer" "bogus")
    ∧ get_sqlalchemy_field customerModel "bogus.total"
        = .error (.fieldNotFound "Customer" "bogus.total")
    ∧ get_sqlalchemy_field customerModel "a.b.c" = .error .valueError
    ∧ get_sqlalchemy_field customerModel "orders.zzz" = .error (.attributeError "Order" "zzz")
    ∧ get_sqlalchemy_field clientModel "invoices.parts"
        = .ok (.relation invoiceModel "parts" partModel) :=
  ⟨c2_field_resolution_failures.1 customerModel "bogus" (by decide) (by decide),
   c2_field_resolution_failures.2.1 customerModel "bogus.total" "bogus" "total"
     (by decide) (by decide) rfl,
   c2_field_resolution_failures.2.2.1 customerModel "a.b.c" "a" "b" "c" []
     (by decide) (by decide),
   c2_field_resolution_failures.2.2.2.1 customerModel orderModel "orders.zzz" "orders" "zzz"
     (by decide) (by decide) rfl rfl,
   c2_field_resolution_failures.2.2.2.2 clientModel invoiceModel partModel
     "invoices.parts" "invoices" "parts" (by decide) (by decide) rfl (by decide) rfl⟩

/-- C3: with an explicit model name in the spec, a name present in the
query's model mapping resolves to that model, and a name absent from a
non-empty mapping fails with `BadSpec` naming the model — in both cases
regardless of the supplied default model. -/
theorem c3_resolve_model_explicit_name :
    (∀ (spec : FilterSpec) (q : Query) (d : Option Model) (name : String) (m : Model),
      spec.model = some name →
      dictLookup (get_query_models q) name = some m →
      get_model_from_spec spec q d = .ok m)
    ∧ (∀ (spec : FilterSpec) (q : Query) (d : Option Model) (name : String),
      spec.model = some name →
      get_query_models q ≠ [] →
      dictLookup (get_query_models q) name = none →
      get_model_from_spec spec q d =
        .error (.badSpec ("The query does not contain model `" ++ name ++ "`."))) := by
  constructor
  · intro spec q d name m hspec hlook
    simp only [dictLookup] at hlook
    obtain ⟨pair, hfind, hm⟩ := Option.map_eq_some'.mp hlook
    have hfil : ((get_query_models q).filter (fun p => p.1 == name)).head? = some pair := by
      rw [← find?_eq_head_filter]
      exact hfind
    have hne : (get_query_models q).isEmpty = false := by
      cases hq : get_query_models q with
      | nil =>
        rw [hq] at hfind
        simp at hfind
      | cons a t => simp [hq]
    cases hfil2 : (get_query_models q).filter (fun p => p.1 == name) with
    | nil =>
      rw [hfil2] at hfil
      simp at hfil
    | cons a t =>
      rw [hfil2] at hfil
      simp only [List.head?_cons, Option.some_inj] at hfil
      obtain ⟨a1, a2⟩ := a
      simp only [get_model_from_spec, hne, Bool.false_eq_true, if_false, hspec, hfil2]
      have h2 : a2 = m := by
        have hs := congrArg Prod.snd hfil
        simpa using hs.trans hm
      rw [h2]
  · intro spec q d name hspec hne hlook
    simp only [dictLookup] at hlook
    have hfind : (get_query_models q).find? (fun p => p.1 == name) = none := by
      cases hf : (get_query_models q).find? (fun p => p.1 == name) with
      | none => rfl
      | some pair =>
        rw [hf] at hlook
        simp at hlook
    have hfil : (get_query_models q).filter (fun p => p.1 == name) = [] := by
      have := (find?_eq_head_filter (fun p => p.1 == name) (get_query_models q)).symm.trans hfind
      cases hfil2 : (get_query_models q).filter (fun p => p.1 == name) with
      | nil => rfl
      | cons a t =>
        rw [hfil2] at this
        simp at this
    have hempty : (get_query_models q).isEmpty = false := by
      cases hq : get_query_models q with
      | nil => exact absurd hq hne
      | cons a t => simp [hq]
    simp [get_model_from_spec, hempty, hspec, hfil]

/-- Witness for C3: on a Customer-plus-Order query, the explicit name
`Order` resolves to the order model even with a default supplied, and the
absent name `Zed` fails with the naming `BadSpec`. -/
theorem c3_resolve_model_explicit_name_witness :
    get_model_from_spec ⟨"f", some "Order"⟩ customerOrderQuery (some partModel) = .ok orderModel
    ∧ get_model_from_spec ⟨"f", some "Zed"⟩ customerOrderQuery (some partModel)
        = .error (.badSpec "The query does not contain model `Zed`.") :=
  ⟨c3_resolve_model_explicit_name.1 ⟨"f", some "Order"⟩ customerOrderQuery (some partModel)
      "Order" orderModel rfl rfl,
   c3_resolve_model_explicit_name.2 ⟨"f", some "Zed"⟩ customerOrderQuery (some partModel)
      "Zed" rfl
      (by rw [show get_query_models customerOrderQuery
            = [("Customer", customerModel), ("Order", orderModel)] from rfl]
          simp)
      rfl⟩

/-- C4: with no explicit model name, a single-model query resolves to its
model even when a default is supplied; a multi-model query resolves to
the default when one is supplied, and fails with the ambiguity `BadSpec`
when none is. -/
theorem c4_resolve_model_inferred :
    (∀ (spec : FilterSpec) (q : Query) (d : Option Model) (n : String) (m : Model),
      spec.model = none →
      get_query_models q = [(n, m)] →
      get_model_from_spec spec q d = .ok m)
    ∧ (∀ (spec : FilterSpec) (q : Query) (dm : Model) (a b : String × Model)
        (rest : List (String × Model)),
      spec.model = none →
      get_query_models q = a :: b :: rest →
      get_model_from_spec spec q (some dm) = .ok dm)
    ∧ (∀ (spec : FilterSpec) (q : Query) (a b : String × Model)
        (rest : List (String × Model)),
      spec.model = none →
      get_query_models q = a :: b :: rest →
      get_model_from_spec spec q none =
        .error (.badSpec "Ambiguous spec. Please specify a model.")) := by
  refine ⟨?_, ?_, ?_⟩
  · intro spec q d n m hspec hq
    simp [get_model_from_spec, hq, hspec]
  · intro spec q dm a b rest hspec hq
    obtain ⟨a1, a2⟩ := a
    simp [get_model_from_spec, hq, hspec]
  · intro spec q a b rest hspec hq
    obtain ⟨a1, a2⟩ := a
    simp [get_model_from_spec, hq, hspec]

/-- Witness for C4: the single-model Customer query resolves to the
customer model despite a default; the two-model query returns the default
when given one and fails as ambiguous without one. -/
theorem c4_resolve_model_inferred_witness :
    get_model_from_spec ⟨"f", none⟩ customerQuery (some partModel) = .ok customerModel
    ∧ get_model_from_spec ⟨"f", none⟩ customerOrderQuery (some partModel) = .ok partModel
    ∧ get_model_from_spec ⟨"f", none⟩ customerOrderQuery none
        = .error (.badSpec "Ambiguous spec. Please specify a model.") :=
  ⟨c4_resolve_model_inferred.1 ⟨"f", none⟩ customerQuery (some partModel)
      "Customer" customerModel rfl rfl,
   c4_resolve_model_inferred.2.1 ⟨"f", none⟩ customerOrderQuery partModel
      ("Customer", customerModel) ("Order", orderModel) [] rfl rfl,
   c4_resolve_model_inferred.2.2 ⟨"f", none⟩ customerOrderQuery
      ("Customer", customerModel) ("Order", orderModel) [] rfl rfl⟩

/-- C5: on a query whose model mapping is empty, model resolution fails
with `BadQuery` whatever the spec's content and whatever default model is
supplied. -/
theorem c5_empty_query_bad_query :
    ∀ (spec : FilterSpec) (q : Query) (d : Option Model),
      get_query_models q = [] →
      get_model_from_spec spec q d =
        .error (.badQuery "The query does not contain any models.") := by
  intro spec q d hq
  simp [get_model_from_spec, hq]

/-- Witness for C5: the empty query fails with `BadQuery` for a spec that
even names a model and supplies a default. -/
theorem c5_empty_query_bad_query_witness :
    get_model_from_spec ⟨"f", some "Order"⟩ ⟨[], []⟩ (some partModel)
      = .error (.badQuery "The query does not contain any models.") :=
  c5_empty_query_bad_query ⟨"f", some "Order"⟩ ⟨[], []⟩ (some partModel) rfl

/-- C6: when the engine rejects the join for a dotted leaf filter (an
`InvalidRequestError` from the join attempt), the rejection is swallowed:
`filter_join` keeps the working query unchanged, and the implicit-join
walk continues with the next node — whether the leaf sits at top level or
among a combinator's children — so no error from the join attempt reaches
the caller of `implicit_join`. -/
theorem c6_join_rejection_swallowed :
    ∀ (join : JoinOracle) (model : Model) (q : Query) (fs : FilterSpec)
      (R C : String) (a : Attr) (rest children : List FilterNode),
      containsDot fs.field = true →
      pySplit fs.field = [R, C] →
      getattrOpt model R = some a →
      join q (.ofAttr a) = .invalidRequest →
      filter_join join model q (.leaf fs) = .ok q
      ∧ implicit_join join q model (.leaf fs :: rest) = implicit_join join q model rest
      ∧ implicit_join join q model (.comb (.leaf fs :: children) :: rest)
          = implicit_join join q model (.comb children :: rest) := by
  intro join model q fs R C a rest children hdot hsplit hattr hjoin
  have hfj : filter_join join model q (.leaf fs) = .ok q := by
    simp [filter_join, hdot, hsplit, hattr, hjoin]
  refine ⟨hfj, ?_, ?_⟩
  · simp [implicit_join, List.foldlM_cons, processNode, hasFiltersAttr, hfj, Bind.bind,
      Except.bind]
  · simp [implicit_join, List.foldlM_cons, processNode, hasFiltersAttr, hfj, Bind.bind,
      Except.bind]

/-- Witness for C6 with an always-rejecting engine on the dotted leaf
`orders.total` over the customer query. -/
theorem c6_join_rejection_swallowed_witness :
    filter_join rejectAllOracle customerModel customerQuery
        (.leaf ⟨"orders.total", none⟩) = .ok customerQuery
    ∧ implicit_join rejectAllOracle customerQuery customerModel
        [.leaf ⟨"orders.total", none⟩]
        = implicit_join rejectAllOracle customerQuery customerModel []
    ∧ implicit_join rejectAllOracle customerQuery customerModel
        [.comb [.leaf ⟨"orders.total", none⟩]]
        = implicit_join rejectAllOracle customerQuery customerModel [.comb []] :=
  c6_join_rejection_swallowed rejectAllOracle customerModel customerQuery
    ⟨"orders.total", none⟩ "orders" "total"
    (.relation customerModel "orders" orderModel) [] []
    (by decide) (by decide) rfl rfl

/-- C7: the query introspector's mapping is keyed by model name and holds
exactly the primary selected entities followed by the already-joined
entities, with a later entry overwriting an earlier one of the same name:
looking up any name yields the last entity of that name in the
concatenated list (and nothing for names not in it). -/
theorem c7_get_query_models_characterization :
    ∀ (q : Query) (n : String),
      dictLookup (get_query_models q) n
        = lastNamed (q.primaryEntities ++ q.joinEntities) n := by
  intro q n
  unfold get_query_models
  rw [foldl_insert_lookup]
  cases hl : lastNamed (q.primaryEntities ++ q.joinEntities) n <;> simp [dictLookup]

/-- C8: the implicit-join walk is two levels deep: a top-level combinator
has the leaf rule (`filter_join`) applied to each of its children in
order without further expansion, a top-level non-combinator has the leaf
rule applied to itself, and a leaf with no separator in its field name
leaves the working query unchanged. -/
theorem c8_two_level_walk :
    (∀ (join : JoinOracle) (model : Model) (q : Query)
      (children rest : List FilterNode),
      implicit_join join q model (.comb children :: rest)
        = (children.foldlM (fun q2 f2 => filter_join join model q2 f2) q) >>= fun q2 =>
            implicit_join join q2 model rest)
    ∧ (∀ (join : JoinOracle) (model : Model) (q : Query) (fs : FilterSpec)
        (rest : List FilterNode),
      implicit_join join q model (.leaf fs :: rest)
        = (filter_join join model q (.leaf fs)) >>= fun q2 =>
            implicit_join join q2 model rest)
    ∧ (∀ (join : JoinOracle) (model : Model) (q : Query) (fs : FilterSpec),
      containsDot fs.field = false →
      filter_join join model q (.leaf fs) = .ok q) := by
  refine ⟨?_, ?_, ?_⟩
  · intro join model q children rest
    simp [implicit_join, List.foldlM_cons, processNode, hasFiltersAttr]
  · intro join model q fs rest
    simp [implicit_join, List.foldlM_cons, processNode, hasFiltersAttr]
  · intro join model q fs hdot
    simp [filter_join, hdot]

/-- Witness for C8's leaf rule on the separator-free field `name`. -/
theorem c8_two_level_walk_witness :
    filter_join rejectAllOracle customerModel customerQuery (.leaf ⟨"name", none⟩)
      = .ok customerQuery :=
  c8_two_level_walk.2.2 rejectAllOracle customerModel customerQuery
    ⟨"name", none⟩ (by decide)

/-- C9: when every requested name's registry model is already among the
query's models, `auto_join` attempts no join — the result is `.ok` of the
unchanged query for every join oracle whatsoever — so the model set is
unchanged. -/
theorem c9_auto_join_noop_when_present :
    ∀ (declRegistry : Model → List Model) (join : JoinOracle) (q : Query)
      (names : List String) (lastM : Model),
      (dictValues (get_query_models q)).getLast? = some lastM →
      (∀ name ∈ names, ∃ m,
        get_model_class_by_name (declRegistry lastM) name = some m
        ∧ m ∈ dictValues (get_query_models q)) →
      auto_join declRegistry join q names = .ok q := by
  intro declRegistry join q names lastM hlast hall
  simp only [auto_join, hlast]
  induction names with
  | nil => rfl
  | cons name rest ih =>
    obtain ⟨m, hlook, hmem⟩ := hall name (by simp)
    have hstep : auto_join_step (declRegistry lastM) join q name = .ok q := by
      simp only [auto_join_step, hlook]
      rw [optInValues_of_mem m _ hmem]
      simp
    rw [List.foldlM_cons, hstep]
    have ih2 := ih (fun n hn => hall n (by simp [hn]))
    simpa [Bind.bind, Except.bind] using ih2

/-- Witness for C9: requesting `Order` and `Customer` on a query already
containing both is a no-op even for an oracle that would accept joins. -/
theorem c9_auto_join_noop_when_present_witness :
    auto_join (fun _ => [customerModel, orderModel]) appendOracle customerOrderQuery
      ["Order", "Customer"] = .ok customerOrderQuery :=
  c9_auto_join_noop_when_present (fun _ => [customerModel, orderModel]) appendOracle
    customerOrderQuery ["Order", "Customer"] orderModel rfl
    (by
      intro name hname
      rcases List.mem_cons.mp hname with h | h
      · exact ⟨orderModel, by subst h; rfl,
          by rw [show dictValues (get_query_models customerOrderQuery)
            = [customerModel, orderModel] from rfl]; simp⟩
      · have h2 : name = "Customer" := by simpa using h
        exact ⟨customerModel, by subst h2; rfl,
          by rw [show dictValues (get_query_models customerOrderQuery)
            = [customerModel, orderModel] from rfl]; simp⟩)

/-- C10: the registry lookup is a first-match linear scan on `__name__`
returning `None` when nothing matches; `None` is never among the query's
models, so for a name absent from the registry `auto_join` does not skip
the name but takes the not-already-present branch and attempts
`query.join(None)` (the outcome of that attempt alone decides the
result). -/
theorem c10_registry_lookup_absent_name :
    (∀ (registry : List Model) (name : String),
      get_model_class_by_name registry name = registry.find? (fun cls => cls.name == name))
    ∧ (∀ (vs : List Model), optInValues none vs = false)
    ∧ (∀ (declRegistry : Model → List Model) (join : JoinOracle) (q : Query)
        (lastM : Model) (name : String),
      (dictValues (get_query_models q)).getLast? = some lastM →
      get_model_class_by_name (declRegistry lastM) name = none →
      auto_join declRegistry join q [name] =
        match join q .ofNone with
        | .ok q2 => .ok q2
        | .invalidRequest => .ok q
        | .raised e => .error e) := by
  refine ⟨?_, optInValues_none_false, ?_⟩
  · intro registry name
    induction registry with
    | nil => rfl
    | cons cls rest ih =>
      by_cases h : (cls.name == name) = true
      · simp [get_model_class_by_name, h, List.find?_cons_of_pos _ h]
      · have hfind : List.find? (fun cls : Model => cls.name == name) (cls :: rest)
            = List.find? (fun cls : Model => cls.name == name) rest :=
          List.find?_cons_of_neg _ h
        rw [hfind]
        simpa [get_model_class_by_name, h] using ih
  · intro declRegistry join q lastM name hlast hlook
    simp only [auto_join, hlast]
    rw [List.foldlM_cons]
    have hstep : auto_join_step (declRegistry lastM) join q name =
        match join q .ofNone with
        | .ok q2 => .ok q2
        | .invalidRequest => .ok q
        | .raised e => .error e := by
      simp only [auto_join_step, hlook]
      rw [optInValues_none_false]
      simp
    rw [hstep]
    cases hj : join q .ofNone <;>
      simp [hj, Bind.bind, Except.bind, Pure.pure, Except.pure, List.foldlM_nil]

/-- Witness for C10: looking up the absent name `Zed` over the customer
query with an oracle that rejects `join(None)` leaves the query as it
was; the lookup itself returns `None`. -/
theorem c10_registry_lookup_absent_name_witness :
    get_model_class_by_name [customerModel, orderModel] "Zed" = none
    ∧ auto_join (fun _ => [customerModel, orderModel]) rejectAllOracle customerQuery ["Zed"]
        = .ok customerQuery :=
  ⟨by rw [c10_registry_lookup_absent_name.1 [customerModel, orderModel] "Zed"]; rfl,
   (c10_registry_lookup_absent_name.2.2 (fun _ => [customerModel, orderModel]) rejectAllOracle
      customerQuery customerModel "Zed" rfl rfl).trans rfl⟩
